import Mathlib

/-!
Verification of the Token-Holder-Analysis-System core engines:
the holder classification / concentration analyzer and the
constant-product swap simulator (`calculate_price_impact`).

Quantities are modelled over `ℚ` (the source uses Python floats; the
algorithms are pure field arithmetic). Fallible operations return `Except`.
-/

namespace TokenAnalysis

/-- A holder row as ingested from the labeling provider: address, balance,
optional entity name / label / type (Arkham supplies `arkhamEntity.name`,
`arkhamLabel.name` and a type tag such as `cex`/`dex`). -/
structure HolderRecord where
  address : String
  balance : ℚ
  entityName : Option String
  entityLabel : Option String
  entityType : Option String
deriving DecidableEq, Repr

/-- Classification categories for a holder record. -/
inductive HolderCategory where
  | Exchange
  | LockedTeamVesting
  | Unclassified
deriving DecidableEq, Repr

/-- Caller-supplied circulating-supply context: total supply, locked
(team/vesting) supply, and the manually curated set of locked addresses. -/
structure SupplyContext where
  totalSupply : ℚ
  lockedSupply : ℚ
  lockedAddresses : List String
deriving DecidableEq, Repr

/-- Derived circulating supply: total minus locked. -/
def circulatingSupply (ctx : SupplyContext) : ℚ :=
  ctx.totalSupply - ctx.lockedSupply

/-- Entity-type tags recognized as exchange markers (`cex`, `dex`). -/
def exchangeTypeMarkers : List String := ["cex", "dex"]

/-- Exchange-naming heuristics applied to the free-text labels. -/
def exchangeNameHeuristics : List String := ["Hot Wallet", "Deposit", "Cold Wallet"]

/-- Whether `needle` occurs as a contiguous substring of `haystack`
(checked on the character lists). -/
def containsText (haystack needle : String) : Bool :=
  decide (needle.toList <:+: haystack.toList)

/-- Modelled from the spec: the exchange-recognition predicate of the
classifier in the missing `token_holder_pull_and_analysis` module
(spec 4.1 rule 2): the `entityType` tag is a recognized exchange marker,
or the entity label / name matches a known exchange-naming heuristic. -/
def defaultIsExchange (r : HolderRecord) : Bool :=
  (match r.entityType with
   | some t => exchangeTypeMarkers.contains t
   | none => false) ||
  (match r.entityLabel with
   | some l => exchangeNameHeuristics.any (fun h => containsText l h)
   | none => false) ||
  (match r.entityName with
   | some n => exchangeNameHeuristics.any (fun h => containsText n h)
   | none => false)

/-- Modelled from the spec: per-record classification of the missing
`token_holder_pull_and_analysis` module (spec 4.1), first match wins:
1. address in the locked set -> LockedTeamVesting;
2. else the (pluggable) exchange predicate -> Exchange;
3. else Unclassified. -/
def classifyOne (isExchange : HolderRecord → Bool) (lockedAddresses : List String)
    (r : HolderRecord) : HolderCategory :=
  if r.address ∈ lockedAddresses then HolderCategory.LockedTeamVesting
  else if isExchange r then HolderCategory.Exchange
  else HolderCategory.Unclassified

/-- A holder record together with its derived category. -/
structure ClassifiedHolder where
  record : HolderRecord
  category : HolderCategory
deriving DecidableEq, Repr

/-- Modelled from the spec: `classify` of the missing
`token_holder_pull_and_analysis` module (spec 4.1): tag every record. -/
def classify (isExchange : HolderRecord → Bool) (ctx : SupplyContext)
    (records : List HolderRecord) : List ClassifiedHolder :=
  records.map (fun r => ⟨r, classifyOne isExchange ctx.lockedAddresses r⟩)

/-- Analyzer ordering: balance descending, ties broken by address ascending. -/
def holderOrder (a b : ClassifiedHolder) : Prop :=
  b.record.balance < a.record.balance ∨
    (a.record.balance = b.record.balance ∧ a.record.address ≤ b.record.address)

instance : DecidableRel holderOrder := fun a b => by
  unfold holderOrder; infer_instance

instance : IsTotal ClassifiedHolder holderOrder where
  total a b := by
    unfold holderOrder
    rcases lt_trichotomy a.record.balance b.record.balance with h | h | h
    · exact Or.inr (Or.inl h)
    · rcases le_total a.record.address b.record.address with h2 | h2
      · exact Or.inl (Or.inr ⟨h, h2⟩)
      · exact Or.inr (Or.inr ⟨h.symm, h2⟩)
    · exact Or.inl (Or.inl h)

instance : IsTrans ClassifiedHolder holderOrder where
  trans a b c hab hbc := by
    unfold holderOrder at *
    rcases hab with h1 | ⟨h1, h1a⟩
    · rcases hbc with h2 | ⟨h2, _⟩
      · exact Or.inl (h2.trans h1)
      · exact Or.inl (h2 ▸ h1)
    · rcases hbc with h2 | ⟨h2, h2a⟩
      · exact Or.inl (h1 ▸ h2)
      · exact Or.inr ⟨h1.trans h2, le_trans h1a h2a⟩

/-- Errors raised by the concentration analyzer. -/
inductive AnalyzeError where
  | InvalidContext
  | EmptyInput
deriving DecidableEq, Repr

/-- The analyzer's report: per-holder shares (in the ranked order),
cumulative top-N shares, HHI, and whale-flagged addresses. -/
structure ConcentrationReport where
  perHolderShare : List (String × ℚ)
  topNShares : List (ℕ × ℚ)
  hhi : ℚ
  flagged : List String
deriving DecidableEq, Repr

/-- The non-locked entries of a classified list: the holders included in
every concentration statistic (exchange wallets stay in). -/
def includedOf (classified : List ClassifiedHolder) : List ClassifiedHolder :=
  classified.filter (fun h => h.category ≠ HolderCategory.LockedTeamVesting)

/-- Modelled from the spec: `filter_and_analyze`'s concentration analysis in
the missing `token_holder_pull_and_analysis` module (spec 4.2): validate the
context, exclude locked entries, sort by balance descending (ties by address
ascending), compute shares of circulating supply, top-N cumulative shares,
HHI on the 0-10000 scale, and the whale-flagged set. -/
def analyze (classified : List ClassifiedHolder) (ctx : SupplyContext)
    (topNs : List ℕ) (whaleThreshold : ℚ) :
    Except AnalyzeError ConcentrationReport :=
  if circulatingSupply ctx ≤ 0 then Except.error AnalyzeError.InvalidContext
  else
    let included := includedOf classified
    if included.isEmpty then Except.error AnalyzeError.EmptyInput
    else
      let sorted := included.insertionSort holderOrder
      let shares := sorted.map
        (fun h => (h.record.address, h.record.balance / circulatingSupply ctx))
      let topN := topNs.map (fun n => (n, ((shares.take n).map Prod.snd).sum))
      let hhiVal := (shares.map (fun p => (p.2 * 100) ^ 2)).sum
      let flaggedAddrs := (shares.filter (fun p => whaleThreshold < p.2)).map Prod.fst
      Except.ok ⟨shares, topN, hhiVal, flaggedAddrs⟩

/-- Modelled from the spec: `fetch_token_holders` of the missing
`token_holder_pull_and_analysis` module. The Arkham-style endpoint it calls
"only returns the top 100 holders" (README, Task 1), so the fetch is modelled
as truncating the provider's ranked holder list to its first 100 rows. -/
def fetch_token_holders (providerRows : List HolderRecord) : List HolderRecord :=
  providerRows.take 100

/-- Errors raised by the swap simulator's input validation. -/
inductive SwapError where
  | InvalidReserves
  | InvalidAmount
  | InvalidFee
deriving DecidableEq, Repr

/-- Result of a simulated swap: post-trade reserves (input side and output
side), output amount, realized execution price, and price impact in percent. -/
structure SwapResult where
  newReserveIn : ℚ
  newReserveOut : ℚ
  amountOut : ℚ
  executionPrice : ℚ
  priceImpact : ℚ
deriving DecidableEq, Repr

/-- Modelled from the spec: `calculate_price_impact` of the missing
`pancake_simulation` module (spec 4.3, constant product with fee-on-input).
`reserveIn`/`reserveOut` are the pool reserves already oriented by the trade
direction. After validation: `effectiveIn = amountIn * (1 - feeRate)`,
`newReserveIn = reserveIn + effectiveIn`,
`newReserveOut = reserveIn * reserveOut / newReserveIn`,
`amountOut = reserveOut - newReserveOut`. The execution price is computed
against the fee-reduced input, `amountOut / effectiveIn`: the Demo.ipynb
output fixes this (printed "Price Impact: 3.795135%" and "Trade Price:
0.000064" match `amountOut / effectiveIn`, not `amountOut / amountIn`, which
would print 4.276159% and 0.000063). `priceImpact` is
`(1 - executionPrice / spotPriceBefore) * 100`. -/
def calculate_price_impact (reserveIn reserveOut amountIn feeRate : ℚ) :
    Except SwapError SwapResult :=
  if reserveIn ≤ 0 ∨ reserveOut ≤ 0 then Except.error SwapError.InvalidReserves
  else if amountIn ≤ 0 then Except.error SwapError.InvalidAmount
  else if feeRate < 0 ∨ 1 ≤ feeRate then Except.error SwapError.InvalidFee
  else
    let effectiveIn := amountIn * (1 - feeRate)
    let k := reserveIn * reserveOut
    let newReserveIn := reserveIn + effectiveIn
    let newReserveOut := k / newReserveIn
    let amountOut := reserveOut - newReserveOut
    let executionPrice := amountOut / effectiveIn
    let spotPriceBefore := reserveOut / reserveIn
    let priceImpact := (1 - executionPrice / spotPriceBefore) * 100
    Except.ok ⟨newReserveIn, newReserveOut, amountOut, executionPrice, priceImpact⟩

/-- The spec's step-by-step formulas for `simulatePriceImpact`, written
verbatim from spec 4.3 (in particular step 6: `executionPrice =
amountOut / amountIn`), used to compare the implementation against the
specified algorithm. -/
def simulatePriceImpact_specSteps (reserveIn reserveOut amountIn feeRate : ℚ) :
    SwapResult :=
  let effectiveIn := amountIn * (1 - feeRate)
  let k := reserveIn * reserveOut
  let newReserveIn := reserveIn + effectiveIn
  let newReserveOut := k / newReserveIn
  let amountOut := reserveOut - newReserveOut
  let executionPrice := amountOut / amountIn
  let spotPriceBefore := reserveOut / reserveIn
  let priceImpact := (1 - executionPrice / spotPriceBefore) * 100
  ⟨newReserveIn, newReserveOut, amountOut, executionPrice, priceImpact⟩

/-- The spec's steps with step 6 corrected to what the implementation
computes: the execution price is taken against the fee-reduced input,
`executionPrice = amountOut / effectiveIn`. -/
def simulatePriceImpact_amendedSteps (reserveIn reserveOut amountIn feeRate : ℚ) :
    SwapResult :=
  let effectiveIn := amountIn * (1 - feeRate)
  let k := reserveIn * reserveOut
  let newReserveIn := reserveIn + effectiveIn
  let newReserveOut := k / newReserveIn
  let amountOut := reserveOut - newReserveOut
  let executionPrice := amountOut / effectiveIn
  let spotPriceBefore := reserveOut / reserveIn
  let priceImpact := (1 - executionPrice / spotPriceBefore) * 100
  ⟨newReserveIn, newReserveOut, amountOut, executionPrice, priceImpact⟩

/-- On valid inputs all three validation guards pass and the simulator
returns the record built from the constant-product formulas. -/
lemma calculate_price_impact_ok_eq (x y a f : ℚ) (hx : 0 < x) (hy : 0 < y)
    (ha : 0 < a) (hf0 : 0 ≤ f) (hf1 : f < 1) :
    calculate_price_impact x y a f = Except.ok
      ⟨x + a * (1 - f), x * y / (x + a * (1 - f)),
       y - x * y / (x + a * (1 - f)),
       (y - x * y / (x + a * (1 - f))) / (a * (1 - f)),
       (1 - ((y - x * y / (x + a * (1 - f))) / (a * (1 - f))) / (y / x)) * 100⟩ := by
  have h1 : ¬ (x ≤ 0 ∨ y ≤ 0) := by push_neg; exact ⟨hx, hy⟩
  have h2 : ¬ (a ≤ 0) := not_le.mpr ha
  have h3 : ¬ (f < 0 ∨ 1 ≤ f) := by push_neg; exact ⟨hf0, hf1⟩
  simp only [calculate_price_impact, if_neg h1, if_neg h2, if_neg h3]

/-- The model reproduces the Demo.ipynb run: pool reserves
26486311.017817 BR / 1749.219988 WBNB, amountIn 1050094.991647 BR, fee
0.005 give amountOut 66.385260, price impact 3.795135% and post-trade
reserves 27531155.534506 BR / 1682.834728 WBNB (all to the printed 6
decimals). Note the printed impact matches `amountOut / effectiveIn` in
step 6; `amountOut / amountIn` would print 4.276159%. -/
theorem demo_run_numbers :
    ∃ res, calculate_price_impact (26486311017817/1000000) (1749219988/1000000)
        (1050094991647/1000000) (5/1000) = Except.ok res ∧
      (3795134 : ℚ)/1000000 < res.priceImpact ∧
      res.priceImpact < (3795135 : ℚ)/1000000 ∧
      (66385259 : ℚ)/1000000 < res.amountOut ∧
      res.amountOut < (66385260 : ℚ)/1000000 ∧
      (27531155534505 : ℚ)/1000000 < res.newReserveIn ∧
      res.newReserveIn < (27531155534506 : ℚ)/1000000 ∧
      (1682834728 : ℚ)/1000000 < res.newReserveOut ∧
      res.newReserveOut < (1682834729 : ℚ)/1000000 := by
  refine ⟨_, calculate_price_impact_ok_eq _ _ _ _ (by norm_num) (by norm_num)
    (by norm_num) (by norm_num) (by norm_num), ?_, ?_, ?_, ?_, ?_, ?_, ?_, ?_⟩ <;>
    norm_num

/-- C1: for every pool with both reserves strictly positive, every
`amountIn > 0` and every `feeRate` in `[0,1)`, the simulator succeeds and
its `amountOut` satisfies `0 < amountOut < reserveOut`: one trade can never
fully drain the output reserve. -/
theorem C1_amountOut_pos_lt_reserveOut (x y a f : ℚ) (hx : 0 < x) (hy : 0 < y)
    (ha : 0 < a) (hf0 : 0 ≤ f) (hf1 : f < 1) :
    ∃ res, calculate_price_impact x y a f = Except.ok res ∧
      0 < res.amountOut ∧ res.amountOut < y := by
  refine ⟨_, calculate_price_impact_ok_eq x y a f hx hy ha hf0 hf1, ?_, ?_⟩
  · have he : 0 < a * (1 - f) := mul_pos ha (by linarith)
    have hxe : 0 < x + a * (1 - f) := by linarith
    have hlt : x * y / (x + a * (1 - f)) < y := by
      rw [div_lt_iff₀ hxe]; nlinarith
    simpa using sub_pos.mpr hlt
  · have he : 0 < a * (1 - f) := mul_pos ha (by linarith)
    have hxe : 0 < x + a * (1 - f) := by linarith
    have hpos : 0 < x * y / (x + a * (1 - f)) := div_pos (mul_pos hx hy) hxe
    simp only []
    linarith

/-- Witness for C1 at the pool (100, 100), amountIn 10, feeRate 1/10. -/
theorem C1_witness :
    ∃ res, calculate_price_impact 100 100 10 (1/10) = Except.ok res ∧
      0 < res.amountOut ∧ res.amountOut < 100 :=
  C1_amountOut_pos_lt_reserveOut 100 100 10 (1/10) (by norm_num) (by norm_num)
    (by norm_num) (by norm_num) (by norm_num)

/-- C2 counterexample: at reserves (2, 3), amountIn 1, feeRate 1/2 the
implementation returns executionPrice 6/5 = amountOut / effectiveIn, while
the spec's step 6 (`executionPrice = amountOut / amountIn`) gives 3/5, so
the simulator does not compute exactly the claimed formulas. -/
theorem C2_exec_price_counterexample :
    calculate_price_impact 2 3 1 (1/2) =
      Except.ok ⟨5/2, 12/5, 3/5, 6/5, 20⟩ ∧
    (simulatePriceImpact_specSteps 2 3 1 (1/2)).executionPrice = 3/5 ∧
    calculate_price_impact 2 3 1 (1/2) ≠
      Except.ok (simulatePriceImpact_specSteps 2 3 1 (1/2)) := by
  have h := calculate_price_impact_ok_eq 2 3 1 (1/2) (by norm_num) (by norm_num)
    (by norm_num) (by norm_num) (by norm_num)
  norm_num at h
  refine ⟨h, by norm_num [simulatePriceImpact_specSteps], ?_⟩
  simp only [h, simulatePriceImpact_specSteps, ne_eq, Except.ok.injEq,
    SwapResult.mk.injEq]
  norm_num

/-- C2 amended: on every valid input the simulator returns exactly the
spec's steps 1-5 with step 6 corrected to
`executionPrice = amountOut / effectiveIn` (and step 7 as specified on top
of it); in closed form `priceImpact = 100 * effectiveIn / (reserveIn +
effectiveIn)` percent. -/
theorem C2_amended_formulas (x y a f : ℚ) (hx : 0 < x) (hy : 0 < y)
    (ha : 0 < a) (hf0 : 0 ≤ f) (hf1 : f < 1) :
    calculate_price_impact x y a f =
      Except.ok (simulatePriceImpact_amendedSteps x y a f) ∧
    (simulatePriceImpact_amendedSteps x y a f).priceImpact =
      100 * (a * (1 - f)) / (x + a * (1 - f)) := by
  constructor
  · exact calculate_price_impact_ok_eq x y a f hx hy ha hf0 hf1
  · have he : 0 < a * (1 - f) := mul_pos ha (by linarith)
    have hxe : 0 < x + a * (1 - f) := by linarith
    show (1 - ((y - x * y / (x + a * (1 - f))) / (a * (1 - f))) / (y / x)) * 100 =
      100 * (a * (1 - f)) / (x + a * (1 - f))
    field_simp
    ring

/-- Witness for C2 amended at reserves (2, 3), amountIn 1, feeRate 1/2. -/
theorem C2_amended_witness :
    calculate_price_impact 2 3 1 (1/2) =
      Except.ok (simulatePriceImpact_amendedSteps 2 3 1 (1/2)) ∧
    (simulatePriceImpact_amendedSteps 2 3 1 (1/2)).priceImpact =
      100 * (1 * (1 - 1/2)) / (2 + 1 * (1 - 1/2)) :=
  C2_amended_formulas 2 3 1 (1/2) (by norm_num) (by norm_num) (by norm_num)
    (by norm_num) (by norm_num)

/-- C3 counterexample: at reserves (2, 3), amountIn 1, feeRate 1/2 the
returned post-trade reserves are (5/2, 12/5), whose product is exactly
2 * 3 = 6; it does not exceed the pre-trade product, refuting "k strictly
increases by the fee amount". -/
theorem C3_product_counterexample :
    calculate_price_impact 2 3 1 (1/2) =
      Except.ok ⟨5/2, 12/5, 3/5, 6/5, 20⟩ ∧
    (5/2 : ℚ) * (12/5) = 2 * 3 ∧
    ¬ ((2 : ℚ) * 3 < (5/2) * (12/5)) := by
  have h := calculate_price_impact_ok_eq 2 3 1 (1/2) (by norm_num) (by norm_num)
    (by norm_num) (by norm_num) (by norm_num)
  norm_num at h
  exact ⟨h, by norm_num, by norm_num⟩

/-- C3 amended: for every swap with feeRate in (0,1) (and any valid input),
the post-trade reserves returned by the simulator satisfy the
constant-product invariant exactly: newReserveIn * newReserveOut equals the
pre-trade product reserveIn * reserveOut; the fee portion of the input is
not added to the pool's reserves, so k is preserved, not increased. -/
theorem C3_amended_product_preserved (x y a f : ℚ) (hx : 0 < x) (hy : 0 < y)
    (ha : 0 < a) (hf0 : 0 < f) (hf1 : f < 1) :
    ∃ res, calculate_price_impact x y a f = Except.ok res ∧
      res.newReserveIn * res.newReserveOut = x * y := by
  refine ⟨_, calculate_price_impact_ok_eq x y a f hx hy ha (le_of_lt hf0) hf1, ?_⟩
  have he : 0 < a * (1 - f) := mul_pos ha (by linarith)
  have hxe : x + a * (1 - f) ≠ 0 := by positivity
  show (x + a * (1 - f)) * (x * y / (x + a * (1 - f))) = x * y
  field_simp

/-- Witness for C3 amended at reserves (2, 3), amountIn 1, feeRate 1/2. -/
theorem C3_amended_witness :
    ∃ res, calculate_price_impact 2 3 1 (1/2) = Except.ok res ∧
      res.newReserveIn * res.newReserveOut = 2 * 3 :=
  C3_amended_product_preserved 2 3 1 (1/2) (by norm_num) (by norm_num)
    (by norm_num) (by norm_num) (by norm_num)

/-- C4: a record whose address is in the context's locked-address set is
always classified `LockedTeamVesting`, whatever the exchange predicate says
about its entityType / entityLabel / entityName (rule 1 precedes rule 2),
and `classify` tags it accordingly inside any record list. -/
theorem C4_locked_precedence (isExchange : HolderRecord → Bool)
    (ctx : SupplyContext) (r : HolderRecord)
    (h : r.address ∈ ctx.lockedAddresses) :
    classifyOne isExchange ctx.lockedAddresses r =
      HolderCategory.LockedTeamVesting ∧
    ∀ records : List HolderRecord, r ∈ records →
      (⟨r, HolderCategory.LockedTeamVesting⟩ : ClassifiedHolder) ∈
        classify isExchange ctx records := by
  have h1 : classifyOne isExchange ctx.lockedAddresses r =
      HolderCategory.LockedTeamVesting := by
    unfold classifyOne; rw [if_pos h]
  refine ⟨h1, fun records hr => ?_⟩
  have hmem := List.mem_map_of_mem
    (fun s => (⟨s, classifyOne isExchange ctx.lockedAddresses s⟩ : ClassifiedHolder)) hr
  simp only [] at hmem
  rw [h1] at hmem
  exact hmem

/-- Witness for C4: a record carrying a `cex` type, a "Hot Wallet" label and
an exchange name, recognized by the default exchange predicate, is still
classified `LockedTeamVesting` once its address is in the locked set. -/
theorem C4_witness :
    defaultIsExchange ⟨"0xabc", 5, some "Binance", some "Hot Wallet", some "cex"⟩ = true ∧
    classifyOne defaultIsExchange ["0xabc"]
      ⟨"0xabc", 5, some "Binance", some "Hot Wallet", some "cex"⟩ =
      HolderCategory.LockedTeamVesting :=
  ⟨by decide,
   (C4_locked_precedence defaultIsExchange ⟨10, 0, ["0xabc"]⟩
      ⟨"0xabc", 5, some "Binance", some "Hot Wallet", some "cex"⟩ (by simp)).1⟩

/-- C5: the analyzer fails with `InvalidContext` whenever
`circulatingSupply <= 0`; with a valid context it fails with `EmptyInput`
whenever excluding the `LockedTeamVesting` entries leaves the list empty;
and in either failure case no report is produced. -/
theorem C5_analyze_failure_modes (classified : List ClassifiedHolder)
    (ctx : SupplyContext) (topNs : List ℕ) (thr : ℚ) :
    (circulatingSupply ctx ≤ 0 →
      analyze classified ctx topNs thr = Except.error AnalyzeError.InvalidContext) ∧
    (0 < circulatingSupply ctx → includedOf classified = [] →
      analyze classified ctx topNs thr = Except.error AnalyzeError.EmptyInput) ∧
    ((circulatingSupply ctx ≤ 0 ∨ includedOf classified = []) →
      ∀ report, analyze classified ctx topNs thr ≠ Except.ok report) := by
  have hA : circulatingSupply ctx ≤ 0 →
      analyze classified ctx topNs thr = Except.error AnalyzeError.InvalidContext := by
    intro h; unfold analyze; rw [if_pos h]
  have hB : 0 < circulatingSupply ctx → includedOf classified = [] →
      analyze classified ctx topNs thr = Except.error AnalyzeError.EmptyInput := by
    intro hpos hemp
    unfold analyze
    rw [if_neg (not_le.mpr hpos)]
    simp only [hemp, List.isEmpty_nil, if_true]
  refine ⟨hA, hB, ?_⟩
  rintro (h | h) report hcontra
  · rw [hA h] at hcontra; exact Except.noConfusion hcontra
  · rcases le_or_lt (circulatingSupply ctx) 0 with hle | hpos
    · rw [hA hle] at hcontra; exact Except.noConfusion hcontra
    · rw [hB hpos h] at hcontra; exact Except.noConfusion hcontra

/-- Witness for C5: a context with circulating supply 1 - 2 < 0 is rejected
as `InvalidContext`, and a valid context whose only holder is locked is
rejected as `EmptyInput`. -/
theorem C5_witness :
    analyze [] ⟨1, 2, []⟩ [] 0 = Except.error AnalyzeError.InvalidContext ∧
    analyze [⟨⟨"L", 5, none, none, none⟩, HolderCategory.LockedTeamVesting⟩]
      ⟨2, 1, ["L"]⟩ [] 0 = Except.error AnalyzeError.EmptyInput :=
  ⟨(C5_analyze_failure_modes [] ⟨1, 2, []⟩ [] 0).1
     (by norm_num [circulatingSupply]),
   (C5_analyze_failure_modes
      [⟨⟨"L", 5, none, none, none⟩, HolderCategory.LockedTeamVesting⟩]
      ⟨2, 1, ["L"]⟩ [] 0).2.1
     (by norm_num [circulatingSupply]) (by rfl)⟩

/-- C6: the simulator fails with `InvalidReserves` whenever either reserve
is ≤ 0; with positive reserves it fails with `InvalidAmount` whenever
`amountIn <= 0`; with positive reserves and a positive amount it fails with
`InvalidFee` whenever the fee is outside [0,1); in particular a zero trade
size is rejected as `InvalidAmount`. -/
theorem C6_simulator_validation (x y a f : ℚ) :
    (x ≤ 0 ∨ y ≤ 0 →
      calculate_price_impact x y a f = Except.error SwapError.InvalidReserves) ∧
    (0 < x → 0 < y → a ≤ 0 →
      calculate_price_impact x y a f = Except.error SwapError.InvalidAmount) ∧
    (0 < x → 0 < y → 0 < a → (f < 0 ∨ 1 ≤ f) →
      calculate_price_impact x y a f = Except.error SwapError.InvalidFee) ∧
    (0 < x → 0 < y →
      calculate_price_impact x y 0 f = Except.error SwapError.InvalidAmount) := by
  refine ⟨?_, ?_, ?_, ?_⟩
  · intro h; unfold calculate_price_impact; rw [if_pos h]
  · intro hx hy ha
    unfold calculate_price_impact
    rw [if_neg (by push_neg; exact ⟨hx, hy⟩), if_pos ha]
  · intro hx hy ha hf
    unfold calculate_price_impact
    rw [if_neg (by push_neg; exact ⟨hx, hy⟩), if_neg (not_le.mpr ha), if_pos hf]
  · intro hx hy
    unfold calculate_price_impact
    rw [if_neg (by push_neg; exact ⟨hx, hy⟩), if_pos le_rfl]

/-- Witness for C6: a zero reserve, a zero trade size, and a fee of 1 are
each rejected with the corresponding error. -/
theorem C6_witness :
    calculate_price_impact 0 100 10 0 = Except.error SwapError.InvalidReserves ∧
    calculate_price_impact 100 100 0 0 = Except.error SwapError.InvalidAmount ∧
    calculate_price_impact 100 100 10 1 = Except.error SwapError.InvalidFee :=
  ⟨(C6_simulator_validation 0 100 10 0).1 (Or.inl le_rfl),
   (C6_simulator_validation 100 100 0 0).2.2.2 (by norm_num) (by norm_num),
   (C6_simulator_validation 100 100 10 1).2.2.1 (by norm_num) (by norm_num)
     (by norm_num) (Or.inr le_rfl)⟩

/-- Core algebra of the fee round trip, with `g` standing for `1 - feeRate`:
swapping `a` forward and feeding the proceeds back through the reversed pool
returns strictly less than `a` whenever `0 < g < 1`. -/
lemma roundtrip_loss_arith (x y a g : ℚ) (hx : 0 < x) (hy : 0 < y)
    (ha : 0 < a) (hg0 : 0 < g) (hg1 : g < 1) :
    (x + a * g) - (x * y / (x + a * g)) * (x + a * g) /
        ((x * y / (x + a * g)) + (y - x * y / (x + a * g)) * g) < a := by
  have he : 0 < a * g := mul_pos ha hg0
  have hD : 0 < x + a * g := by linarith
  have hD' : x + a * g ≠ 0 := ne_of_gt hD
  have hy' : y ≠ 0 := ne_of_gt hy
  have hxgg : 0 < x + a * g * g := by positivity
  have hxgg' : x + a * g * g ≠ 0 := ne_of_gt hxgg
  have hden : (x * y / (x + a * g)) + (y - x * y / (x + a * g)) * g =
      y * (x + a * g * g) / (x + a * g) := by
    field_simp
    ring
  rw [hden]
  have hsimp : (x * y / (x + a * g)) * (x + a * g) /
      (y * (x + a * g * g) / (x + a * g)) = x * (x + a * g) / (x + a * g * g) := by
    field_simp
    ring
  rw [hsimp]
  have hval : (x + a * g) - x * (x + a * g) / (x + a * g * g) =
      a * g * g * (x + a * g) / (x + a * g * g) := by
    field_simp
    ring
  rw [hval, div_lt_iff₀ hxgg]
  nlinarith [mul_pos (mul_pos ha hx)
      (mul_pos (sub_pos.mpr hg1) (by linarith : (0:ℚ) < 1 + g)),
    mul_pos (mul_pos (mul_pos ha ha) (mul_pos hg0 hg0)) (sub_pos.mpr hg1)]

/-- C7 counterexample: pool (100, 100), amountIn 10, feeRate 1/10. The
forward swap pays out 900/109; feeding that back through the reversed pool
returns 8829/1081 < 10, so the recovered amount is strictly SMALLER than the
original amountIn, refuting `recoveredAmountIn > amountIn`. -/
theorem C7_roundtrip_counterexample :
    calculate_price_impact 100 100 10 (1/10) =
      Except.ok ⟨109, 10000/109, 900/109, 100/109, 900/109⟩ ∧
    calculate_price_impact (10000/109) 109 (900/109) (1/10) =
      Except.ok ⟨10810/109, 109000/1081, 8829/1081, 11881/10810, 8100/1081⟩ ∧
    (8829 : ℚ)/1081 < 10 ∧ ¬ ((10 : ℚ) < 8829/1081) := by
  refine ⟨?_, ?_, by norm_num, by norm_num⟩
  · rw [calculate_price_impact_ok_eq 100 100 10 (1/10) (by norm_num) (by norm_num)
      (by norm_num) (by norm_num) (by norm_num)]
    simp only [Except.ok.injEq, SwapResult.mk.injEq]
    norm_num
  · rw [calculate_price_impact_ok_eq (10000/109) 109 (900/109) (1/10)
      (by norm_num) (by norm_num) (by norm_num) (by norm_num) (by norm_num)]
    simp only [Except.ok.injEq, SwapResult.mk.injEq]
    norm_num

/-- C7 amended: for every pool with positive reserves, every `amountIn > 0`
and every `feeRate` in (0,1), running the simulator forward and then again
with direction reversed on the post-trade reserves (feeding back the
amountOut) never recovers the original amountIn: the recovered amount
satisfies `recoveredAmountIn < amountIn` (fees are paid twice). -/
theorem C7_amended_roundtrip_strict_loss (x y a f : ℚ) (hx : 0 < x)
    (hy : 0 < y) (ha : 0 < a) (hf0 : 0 < f) (hf1 : f < 1)
    (r1 r2 : SwapResult)
    (h1 : calculate_price_impact x y a f = Except.ok r1)
    (h2 : calculate_price_impact r1.newReserveOut r1.newReserveIn r1.amountOut f
      = Except.ok r2) :
    r2.amountOut < a := by
  have hg0 : 0 < 1 - f := by linarith
  have hg1 : 1 - f < 1 := by linarith
  have he : 0 < a * (1 - f) := mul_pos ha hg0
  have hD : 0 < x + a * (1 - f) := by linarith
  obtain ⟨n1, o1, out1, ep1, pi1⟩ := r1
  rw [calculate_price_impact_ok_eq x y a f hx hy ha (le_of_lt hf0) hf1] at h1
  injection h1 with h1
  injection h1 with e1 e2 e3 e4 e5
  subst e1; subst e2; subst e3; subst e4; subst e5
  have hrI : 0 < x * y / (x + a * (1 - f)) := div_pos (mul_pos hx hy) hD
  have hout : 0 < y - x * y / (x + a * (1 - f)) := by
    have hlt : x * y / (x + a * (1 - f)) < y := by
      rw [div_lt_iff₀ hD]; nlinarith
    linarith
  obtain ⟨n2, o2, out2, ep2, pi2⟩ := r2
  rw [calculate_price_impact_ok_eq (x * y / (x + a * (1 - f)))
    (x + a * (1 - f)) (y - x * y / (x + a * (1 - f))) f hrI hD hout
    (le_of_lt hf0) hf1] at h2
  injection h2 with h2
  injection h2 with g1 g2 g3 g4 g5
  subst g3
  exact roundtrip_loss_arith x y a (1 - f) hx hy ha hg0 hg1

/-- Witness for C7 amended at pool (100, 100), amountIn 10, feeRate 1/10:
the recovered amount 8829/1081 is strictly below 10. -/
theorem C7_amended_witness : (8829 : ℚ)/1081 < 10 := by
  have hfwd : calculate_price_impact 100 100 10 (1/10) =
      Except.ok ⟨109, 10000/109, 900/109, 100/109, 900/109⟩ := by
    rw [calculate_price_impact_ok_eq 100 100 10 (1/10) (by norm_num) (by norm_num)
      (by norm_num) (by norm_num) (by norm_num)]
    simp only [Except.ok.injEq, SwapResult.mk.injEq]
    norm_num
  have hrev : calculate_price_impact
      (SwapResult.newReserveOut ⟨109, 10000/109, 900/109, 100/109, 900/109⟩)
      (SwapResult.newReserveIn ⟨109, 10000/109, 900/109, 100/109, 900/109⟩)
      (SwapResult.amountOut ⟨109, 10000/109, 900/109, 100/109, 900/109⟩)
      (1/10) =
      Except.ok ⟨10810/109, 109000/1081, 8829/1081, 11881/10810, 8100/1081⟩ := by
    show calculate_price_impact (10000/109) 109 (900/109) (1/10) = _
    rw [calculate_price_impact_ok_eq (10000/109) 109 (900/109) (1/10)
      (by norm_num) (by norm_num) (by norm_num) (by norm_num) (by norm_num)]
    simp only [Except.ok.injEq, SwapResult.mk.injEq]
    norm_num
  exact C7_amended_roundtrip_strict_loss 100 100 10 (1/10) (by norm_num)
    (by norm_num) (by norm_num) (by norm_num) (by norm_num) _ _ hfwd hrev

/-- C8 counterexample: with feeRate 0 on the pool (100, 100), at
amountIn = reserveIn = 100 — and just below and above it — the computed
priceImpact sits near 50%, not near 100%: the impact as amountIn approaches
reserveIn approaches 50%, refuting `priceImpact -> 100%` there. -/
theorem C8_impact_counterexample :
    calculate_price_impact 100 100 100 0 =
      Except.ok ⟨200, 50, 50, 1/2, 50⟩ ∧
    calculate_price_impact 100 100 99 0 =
      Except.ok ⟨199, 10000/199, 9900/199, 100/199, 9900/199⟩ ∧
    calculate_price_impact 100 100 101 0 =
      Except.ok ⟨201, 10000/201, 10100/201, 100/201, 10100/201⟩ ∧
    (9900 : ℚ)/199 < 51 ∧ (50 : ℚ) < 51 ∧ (10100 : ℚ)/201 < 51 ∧
    (50 : ℚ) ≠ 100 := by
  refine ⟨?_, ?_, ?_, by norm_num, by norm_num, by norm_num, by norm_num⟩
  · rw [calculate_price_impact_ok_eq 100 100 100 0 (by norm_num) (by norm_num)
      (by norm_num) (by norm_num) (by norm_num)]
    simp only [Except.ok.injEq, SwapResult.mk.injEq]
    norm_num
  · rw [calculate_price_impact_ok_eq 100 100 99 0 (by norm_num) (by norm_num)
      (by norm_num) (by norm_num) (by norm_num)]
    simp only [Except.ok.injEq, SwapResult.mk.injEq]
    norm_num
  · rw [calculate_price_impact_ok_eq 100 100 101 0 (by norm_num) (by norm_num)
      (by norm_num) (by norm_num) (by norm_num)]
    simp only [Except.ok.injEq, SwapResult.mk.injEq]
    norm_num

/-- C8 amended: with feeRate 0, the priceImpact approaches 100% as amountIn
grows without bound (not as amountIn approaches reserveIn): for every
tolerance ε > 0 there is a threshold beyond which `100 - ε < priceImpact <
100`, while `0 < amountOut < reserveOut` throughout, so the output reserve
is approached but never fully depleted. -/
theorem C8_amended_impact_limit (x y ε : ℚ) (hx : 0 < x) (hy : 0 < y)
    (hε : 0 < ε) :
    ∃ A : ℚ, ∀ a : ℚ, A ≤ a →
      ∃ res, calculate_price_impact x y a 0 = Except.ok res ∧
        100 - ε < res.priceImpact ∧ res.priceImpact < 100 ∧
        0 < res.amountOut ∧ res.amountOut < y := by
  refine ⟨max 1 (100 * x / ε), fun a hA => ?_⟩
  have ha1 : (1:ℚ) ≤ a := le_trans (le_max_left _ _) hA
  have ha : 0 < a := lt_of_lt_of_le one_pos ha1
  have haε : 100 * x / ε ≤ a := le_trans (le_max_right _ _) hA
  have hεa : 100 * x ≤ a * ε := by rwa [div_le_iff₀ hε] at haε
  have hxa : 0 < x + a := by linarith
  have e0 : a * (1 - (0:ℚ)) = a := by ring
  have hlt : x * y / (x + a) < y := by
    rw [div_lt_iff₀ hxa]; nlinarith
  have hpos : 0 < x * y / (x + a) := div_pos (mul_pos hx hy) hxa
  have himp : (1 - ((y - x * y / (x + a)) / a) / (y / x)) * 100 =
      100 * a / (x + a) := by
    field_simp
    ring
  refine ⟨_, calculate_price_impact_ok_eq x y a 0 hx hy ha le_rfl (by norm_num),
    ?_, ?_, ?_, ?_⟩
  · show 100 - ε < (1 - ((y - x * y / (x + a * (1 - 0))) / (a * (1 - 0))) / (y / x)) * 100
    rw [e0, himp, lt_div_iff₀ hxa]
    nlinarith [mul_pos hε hx]
  · show (1 - ((y - x * y / (x + a * (1 - 0))) / (a * (1 - 0))) / (y / x)) * 100 < 100
    rw [e0, himp, div_lt_iff₀ hxa]
    nlinarith
  · show 0 < y - x * y / (x + a * (1 - 0))
    rw [e0]
    linarith
  · show y - x * y / (x + a * (1 - 0)) < y
    rw [e0]
    linarith

/-- Witness for C8 amended at pool (100, 100) with tolerance ε = 1. -/
theorem C8_amended_witness :
    ∃ A : ℚ, ∀ a : ℚ, A ≤ a →
      ∃ res, calculate_price_impact 100 100 a 0 = Except.ok res ∧
        100 - 1 < res.priceImpact ∧ res.priceImpact < 100 ∧
        0 < res.amountOut ∧ res.amountOut < 100 :=
  C8_amended_impact_limit 100 100 1 (by norm_num) (by norm_num) (by norm_num)

/-- On a valid context and a non-empty post-exclusion list, the analyzer
succeeds and returns the report built from the sorted share list. -/
lemma analyze_ok_eq (classified : List ClassifiedHolder) (ctx : SupplyContext)
    (topNs : List ℕ) (thr : ℚ) (hc : 0 < circulatingSupply ctx)
    (hne : (includedOf classified).isEmpty = false) :
    analyze classified ctx topNs thr = Except.ok
      ⟨((includedOf classified).insertionSort holderOrder).map
          (fun h => (h.record.address, h.record.balance / circulatingSupply ctx)),
        topNs.map (fun n => (n,
          ((((((includedOf classified).insertionSort holderOrder).map
            (fun h => (h.record.address,
              h.record.balance / circulatingSupply ctx))).take n).map Prod.snd).sum))),
        ((((includedOf classified).insertionSort holderOrder).map
          (fun h => (h.record.address, h.record.balance / circulatingSupply ctx))).map
          (fun p => (p.2 * 100) ^ 2)).sum,
        (((((includedOf classified).insertionSort holderOrder).map
          (fun h => (h.record.address, h.record.balance / circulatingSupply ctx))).filter
          (fun p => thr < p.2)).map Prod.fst)⟩ := by
  simp only [analyze]
  rw [if_neg (not_le.mpr hc), if_neg (by rw [hne]; exact Bool.false_ne_true)]

/-- C9: whenever the analyzer succeeds, the Top-N cumulative share evaluated
at N = the number of included (non-locked) holders is exactly the sum of all
per-holder shares: the Top-N cut at the full count neither double-counts nor
omits any included entry. -/
theorem C9_topN_at_count_equals_total (classified : List ClassifiedHolder)
    (ctx : SupplyContext) (topNs : List ℕ) (thr : ℚ)
    (report : ConcentrationReport)
    (hok : analyze classified ctx topNs thr = Except.ok report)
    (hmem : (includedOf classified).length ∈ topNs) :
    ((includedOf classified).length,
      (report.perHolderShare.map Prod.snd).sum) ∈ report.topNShares ∧
    (report.perHolderShare.map Prod.snd).sum =
      ((includedOf classified).map
        (fun h => h.record.balance / circulatingSupply ctx)).sum := by
  by_cases hc : circulatingSupply ctx ≤ 0
  · simp only [analyze] at hok
    rw [if_pos hc] at hok
    exact Except.noConfusion hok
  push_neg at hc
  by_cases hne : (includedOf classified).isEmpty
  · simp only [analyze] at hok
    rw [if_neg (not_le.mpr hc), if_pos hne] at hok
    exact Except.noConfusion hok
  have hne' : (includedOf classified).isEmpty = false := by
    simpa using hne
  rw [analyze_ok_eq classified ctx topNs thr hc hne'] at hok
  injection hok with hok
  subst hok
  simp only []
  have hlen : (((includedOf classified).insertionSort holderOrder).map
      (fun h => (h.record.address, h.record.balance / circulatingSupply ctx))).length =
      (includedOf classified).length := by
    rw [List.length_map]
    exact (List.perm_insertionSort holderOrder _).length_eq
  have htake : (((includedOf classified).insertionSort holderOrder).map
      (fun h => (h.record.address, h.record.balance / circulatingSupply ctx))).take
        ((includedOf classified).length) =
      ((includedOf classified).insertionSort holderOrder).map
        (fun h => (h.record.address, h.record.balance / circulatingSupply ctx)) := by
    rw [← hlen]
    exact List.take_length _
  constructor
  · have hmm := List.mem_map_of_mem (fun n => (n,
      ((((((includedOf classified).insertionSort holderOrder).map
        (fun h => (h.record.address,
          h.record.balance / circulatingSupply ctx))).take n).map Prod.snd).sum))) hmem
    simp only [] at hmm
    rw [htake] at hmm
    exact hmm
  · rw [List.map_map]
    have hfun : (Prod.snd ∘ fun h : ClassifiedHolder =>
        (h.record.address, h.record.balance / circulatingSupply ctx)) =
        fun h : ClassifiedHolder => h.record.balance / circulatingSupply ctx := rfl
    rw [hfun]
    exact (List.Perm.map (fun h : ClassifiedHolder =>
      h.record.balance / circulatingSupply ctx)
      (List.perm_insertionSort holderOrder _)).sum_eq

/-- Witness for C9 on a single unclassified holder of balance 5 with
circulating supply 10 and topNs = {1}. -/
theorem C9_witness :
    ∃ report : ConcentrationReport,
      analyze [⟨⟨"a", 5, none, none, none⟩, HolderCategory.Unclassified⟩]
        ⟨10, 0, []⟩ [1] 1 = Except.ok report ∧
      ((includedOf [⟨⟨"a", 5, none, none, none⟩,
          HolderCategory.Unclassified⟩]).length,
        (report.perHolderShare.map Prod.snd).sum) ∈ report.topNShares :=
  ⟨_, analyze_ok_eq _ ⟨10, 0, []⟩ [1] 1 (by norm_num [circulatingSupply]) rfl,
    (C9_topN_at_count_equals_total
      [⟨⟨"a", 5, none, none, none⟩, HolderCategory.Unclassified⟩]
      ⟨10, 0, []⟩ [1] 1 _
      (analyze_ok_eq _ ⟨10, 0, []⟩ [1] 1 (by norm_num [circulatingSupply]) rfl)
      (by simp [includedOf])).1⟩

/-- C10: the data source yields at most 100 holder rows, so the classifier's
included set and every per-holder statistic in a successful analyzer report
range over at most 100 holders. -/
theorem C10_stats_over_top100 (rows : List HolderRecord) :
    (fetch_token_holders rows).length ≤ 100 ∧
    (∀ (isExchange : HolderRecord → Bool) (ctx : SupplyContext),
      (includedOf (classify isExchange ctx (fetch_token_holders rows))).length ≤ 100) ∧
    (∀ (isExchange : HolderRecord → Bool) (ctx : SupplyContext)
      (topNs : List ℕ) (thr : ℚ) (report : ConcentrationReport),
      analyze (classify isExchange ctx (fetch_token_holders rows)) ctx topNs thr =
        Except.ok report → report.perHolderShare.length ≤ 100) := by
  have hfetch : (fetch_token_holders rows).length ≤ 100 := by
    simp only [fetch_token_holders, List.length_take]
    exact min_le_left _ _
  have hcls : ∀ (isExchange : HolderRecord → Bool) (ctx : SupplyContext),
      (includedOf (classify isExchange ctx (fetch_token_holders rows))).length ≤ 100 := by
    intro isEx ctx
    calc (includedOf (classify isEx ctx (fetch_token_holders rows))).length
        ≤ (classify isEx ctx (fetch_token_holders rows)).length :=
          List.length_filter_le _ _
      _ = (fetch_token_holders rows).length := by simp [classify]
      _ ≤ 100 := hfetch
  refine ⟨hfetch, hcls, ?_⟩
  intro isEx ctx topNs thr report hok
  by_cases hc : circulatingSupply ctx ≤ 0
  · simp only [analyze] at hok
    rw [if_pos hc] at hok
    exact Except.noConfusion hok
  push_neg at hc
  by_cases hne : (includedOf (classify isEx ctx (fetch_token_holders rows))).isEmpty
  · simp only [analyze] at hok
    rw [if_neg (not_le.mpr hc), if_pos hne] at hok
    exact Except.noConfusion hok
  have hne' : (includedOf (classify isEx ctx (fetch_token_holders rows))).isEmpty
      = false := by simpa using hne
  rw [analyze_ok_eq _ ctx topNs thr hc hne'] at hok
  injection hok with hok
  subst hok
  simp only []
  rw [List.length_map]
  calc ((includedOf (classify isEx ctx
        (fetch_token_holders rows))).insertionSort holderOrder).length
      = (includedOf (classify isEx ctx (fetch_token_holders rows))).length :=
        (List.perm_insertionSort holderOrder _).length_eq
    _ ≤ 100 := hcls isEx ctx

/-- Witness for C10 on a one-row provider list. -/
theorem C10_witness :
    (fetch_token_holders [⟨"a", 5, none, none, none⟩]).length ≤ 100 ∧
    ∃ report : ConcentrationReport,
      analyze (classify defaultIsExchange ⟨10, 0, []⟩
          (fetch_token_holders [⟨"a", 5, none, none, none⟩])) ⟨10, 0, []⟩ [1] 1 =
        Except.ok report ∧ report.perHolderShare.length ≤ 100 :=
  ⟨(C10_stats_over_top100 [⟨"a", 5, none, none, none⟩]).1,
   _, analyze_ok_eq _ ⟨10, 0, []⟩ [1] 1 (by norm_num [circulatingSupply]) rfl,
   (C10_stats_over_top100 [⟨"a", 5, none, none, none⟩]).2.2 defaultIsExchange
     ⟨10, 0, []⟩ [1] 1 _
     (analyze_ok_eq _ ⟨10, 0, []⟩ [1] 1 (by norm_num [circulatingSupply]) rfl)⟩

end TokenAnalysis
